import Mathlib

/-!
Verification of the IVPN desktop daemon core against its specification.

The Go sources are shallowly embedded: pure functions become Lean
functions, the stateful API client and WireGuard adapter become explicit
state passing, and external effects (TLS dialing, the Windows service
manager, DNS parsing from the standard library) become oracle parameters
describing every possible outcome of the effect.
-/

namespace Ivpn

/-! ## State model (`vpn/types.go`) -/

/-- `vpn.State` is an integer-backed enumeration in the source (`type State int`). -/
abbrev State := Int

def DISCONNECTED : State := 0
def CONNECTING : State := 1
def WAIT : State := 2
def AUTH : State := 3
def GETCONFIG : State := 4
def ASSIGNIP : State := 5
def ADDROUTES : State := 6
def CONNECTED : State := 7
def RECONNECTING : State := 8
def TCP_CONNECT : State := 9
def EXITING : State := 10

/-- The string table indexed by `State.String` (`types.go:78-89`). -/
def stateNames : List String :=
  ["DISCONNECTED", "CONNECTING", "WAIT", "AUTH", "GETCONFIG", "ASSIGNIP",
   "ADDROUTES", "CONNECTED", "RECONNECTING", "TCP_CONNECT", "EXITING"]

/-- Go panics on an out-of-range slice index; the sentinel models that panic
so the guard in `State.String` can be shown to prevent it. -/
def indexPanic : String := "<PANIC: index out of range>"

/-- `State.String` (`types.go:73-90`): guard against out-of-range values,
otherwise index the fixed name table. -/
def State.String (s : State) : String :=
  if s < DISCONNECTED ∨ s > EXITING then "<Unknown>"
  else stateNames.getD s.toNat indexPanic

/-- Cutset of `strings.Trim(stateStr, " \t;,.")` in `ParseState` (`types.go:94`). -/
def trimCutset : List Char := [' ', '\t', ';', ',', '.']

/-- Go `strings.Trim`: remove all leading and trailing characters of the cutset. -/
def goTrim (cut : List Char) (s : String) : String :=
  String.mk (((s.toList.dropWhile (fun c => c ∈ cut)).reverse.dropWhile
    (fun c => c ∈ cut)).reverse)

/-- The `switch` of `ParseState` (`types.go:95-118`), applied to the trimmed string. -/
def parseStateSwitch (t : String) : State × Option String :=
  if t = "CONNECTING" then (CONNECTING, none)
  else if t = "WAIT" then (WAIT, none)
  else if t = "AUTH" then (AUTH, none)
  else if t = "GET_CONFIG" then (GETCONFIG, none)
  else if t = "ASSIGN_IP" then (ASSIGNIP, none)
  else if t = "ADD_ROUTES" then (ADDROUTES, none)
  else if t = "CONNECTED" then (CONNECTED, none)
  else if t = "RECONNECTING" then (RECONNECTING, none)
  else if t = "TCP_CONNECT" then (TCP_CONNECT, none)
  else if t = "EXITING" then (EXITING, none)
  else (DISCONNECTED, some ("unexpected state:" ++ t))

/-- `ParseState` (`types.go:93-119`). Go returns `(State, error)`; we return the
pair `(value, error message)`, with `none` standing for a nil error. -/
def ParseState (stateStr : String) : State × Option String :=
  parseStateSwitch (goTrim trimCutset stateStr)

/-! ## StateInfo and its constructors (`vpn/types.go:121-165`) -/

/-- `vpn.Type` is also integer-backed (`type Type int`); `OpenVPN = 0`,
`WireGuard = 1`. Named `VpnType` because `Type` is reserved in Lean. -/
abbrev VpnType := Int

/-- `net.IP` is a byte slice; `none` models the Go `nil` slice. -/
abbrev IP := List Nat

/-- `vpn.StateInfo` (`types.go:122-141`). -/
structure StateInfo where
  State : State
  Description : String
  VpnType : VpnType
  Time : Int
  IsTCP : Bool
  ClientIP : Option IP
  ClientPort : Int
  ServerIP : Option IP
  ServerPort : Int
  ExitServerID : String
  IsCanPause : Bool
  IsAuthError : Bool
  StateAdditionalInfo : String
deriving DecidableEq, Repr

/-- `NewStateInfo` (`types.go:144-151`): the Go struct literal names
`State`, `Description`, `ClientIP: nil`, `ServerIP: nil`, `IsAuthError: false`;
every other field takes its Go zero value. -/
def NewStateInfo (state : State) (description : String) : StateInfo :=
  { State := state
    Description := description
    VpnType := 0
    Time := 0
    IsTCP := false
    ClientIP := none
    ClientPort := 0
    ServerIP := none
    ServerPort := 0
    ExitServerID := ""
    IsCanPause := false
    IsAuthError := false
    StateAdditionalInfo := "" }

/-- `NewStateInfoConnected` (`types.go:154-165`): the literal sets
`State: CONNECTED`, `Description: ""`, `IsTCP`, `ClientIP`, `ClientPort`,
`ServerIP`, `ServerPort`, `IsAuthError: false`, `IsCanPause`; the remaining
fields (notably `ExitServerID`) take their Go zero values. -/
def NewStateInfoConnected (isTCP : Bool) (clientIP : Option IP) (localPort : Int)
    (serverIP : Option IP) (destPort : Int) (isCanPause : Bool) : StateInfo :=
  { State := CONNECTED
    Description := ""
    VpnType := 0
    Time := 0
    IsTCP := isTCP
    ClientIP := clientIP
    ClientPort := localPort
    ServerIP := serverIP
    ServerPort := destPort
    ExitServerID := ""
    IsCanPause := isCanPause
    IsAuthError := false
    StateAdditionalInfo := "" }

/-- The exact set of strings (post-trim) accepted by `ParseState`. -/
def parseStateTable : List String :=
  ["CONNECTING", "WAIT", "AUTH", "GET_CONFIG", "ASSIGN_IP", "ADD_ROUTES",
   "CONNECTED", "RECONNECTING", "TCP_CONNECT", "EXITING"]

/-! ## Certificate-pinning dialer (`api` package, `makeDialer`) -/

/-- DER bytes produced by `x509.MarshalPKIXPublicKey` for one peer certificate. -/
abbrev Der := List Nat

/-- One entry of `connstate.PeerCertificates`, represented by the outcome of
marshalling its public key: `ok der` when `MarshalPKIXPublicKey` succeeds,
`error e` when it fails. -/
abbrev PeerCert := Except String Der

/-- `findPinnedKey` (`makeDialer` helper): linear scan of the pin list. -/
def findPinnedKey : List String → String → Bool
  | [], _ => false
  | hash :: rest, certBase64hash =>
    if hash = certBase64hash then true else findPinnedKey rest certBase64hash

/-- The body of the peer-certificate loop in the dialer returned by `makeDialer`:
walk the certificates accumulating the last marshalling error; return `ok` on the
first pinned key, otherwise the accumulated last error. -/
def certPinLoop (hash64 : Der → String) (certHashes : List String) :
    List PeerCert → Option String → Except (Option String) Unit
  | [], lastErr => .error lastErr
  | c :: rest, lastErr =>
    match c with
    | .error e => certPinLoop hash64 certHashes rest (some e)
    | .ok der =>
      if findPinnedKey certHashes (hash64 der) then .ok ()
      else certPinLoop hash64 certHashes rest lastErr

/-- Outcome of `tls.Dial` inside the dialer: either the dial itself failed, or a
connection with its peer-certificate chain was produced. -/
inductive DialOutcome where
  | dialErr (e : String)
  | conn (peerCerts : List PeerCert)

/-- Result of the dialer returned by `makeDialer`: either the live connection is
handed to the HTTP client, or no connection is returned at all (so no response
bytes can ever be read) together with an error. -/
inductive DialerResult where
  | conn
  | err (e : String)
deriving DecidableEq, Repr

/-- The pin-miss error message of `makeDialer`, wrapping the last marshalling
error when one occurred. -/
def pinMissError : Option String → String
  | some lastErr => "Certificate check error: pinned certificate key not found: " ++ lastErr
  | none => "Certificate check error: pinned certificate key not found"

/-- The dialer produced by `makeDialer`, as a function of the dial outcome.
`hash64` abstracts `base64.StdEncoding.EncodeToString(sha256.Sum256(der))`. -/
def makeDialer (hash64 : Der → String) (certHashes : List String)
    (d : DialOutcome) : DialerResult :=
  match d with
  | .dialErr e => .err e
  | .conn certs =>
    match certPinLoop hash64 certHashes certs none with
    | .ok () => .conn
    | .error lastErr => .err (pinMissError lastErr)

/-- The marshalling error of a peer certificate, if it had one. -/
def certErr : PeerCert → Option String
  | .error e => some e
  | .ok _ => none

/-- What becomes of the handshaken TLS connection `c` held by the dialer:
handed to the HTTP client (`return c, nil`), dropped without a `Close` call
(`return nil, err`), or closed. The `closed` alternative exists so closing is
statable; no return path of `makeDialer` produces it. -/
inductive ConnFate where
  | handedToClient
  | leakedOpen
  | closed
deriving DecidableEq, Repr

/-- The fate of the handshaken connection in the dialer returned by
`makeDialer`: the body contains no `Close` call, so the pin-hit path hands the
connection over (line 124 of the source file, `return c, nil`) and both
pin-miss paths (lines 129 and 131, `return nil, fmt.Errorf(...)`) drop it
still open. -/
def dialerConnFate (hash64 : Der → String) (certHashes : List String)
    (peerCerts : List PeerCert) : ConnFate :=
  match certPinLoop hash64 certHashes peerCerts none with
  | .ok () => .handedToClient
  | .error _ => .leakedOpen

/-! ## API client state and failover (`api` package) -/

/-- The mutable state of the `API` object: the alternate-IP list and the cached
last-good alternate IP (`nil` modelled as `none`). -/
structure API where
  alternateIPs : List IP
  lastGoodAlternateIP : Option IP
deriving DecidableEq, Repr

/-- `saveLastGoodAlternateIP`. -/
def saveLastGoodAlternateIP (a : API) (lastGoodIP : Option IP) : API :=
  { a with lastGoodAlternateIP := lastGoodIP }

/-- A single HTTP attempt inside `doRequestAPIHost`: either to a literal IP
(`https://<ip>/<path>`) or to the canonical api-host by DNS name. -/
inductive Target where
  | byIP (ip : IP)
  | byDNS
deriving DecidableEq, Repr

/-- The `for i, ip := range ips` loop of `doRequestAPIHost`: try each alternate
IP in order; the first success saves it as last-good. Returns the new state, the
response if any, and the attempts made in order. -/
def tryAlternateIPs {Resp : Type} (att : Target → Except String Resp) (a : API) :
    List IP → API × Option Resp × List Target
  | [] => (a, none, [])
  | ip :: rest =>
    match att (.byIP ip) with
    | .error _ =>
      let (a2, r, tr) := tryAlternateIPs att a rest
      (a2, r, .byIP ip :: tr)
    | .ok resp => (saveLastGoodAlternateIP a (some ip), some resp, [.byIP ip])

/-- The DNS attempt of `doRequestAPIHost` followed (on failure) by the
alternate-IP loop; on DNS success the last-good IP is cleared, and when every
attempt fails the DNS error `firstErr` is the one returned (wrapped). -/
def dnsThenAlternates {Resp : Type} (att : Target → Except String Resp) (a : API)
    (ips : List IP) : API × Except String Resp × List Target :=
  match att .byDNS with
  | .ok resp => (saveLastGoodAlternateIP a none, .ok resp, [.byDNS])
  | .error firstErr =>
    let (a2, r, tr) := tryAlternateIPs att a ips
    match r with
    | some resp => (a2, .ok resp, .byDNS :: tr)
    | none => (a2, .error ("Unable to access IVPN API server: " ++ firstErr), .byDNS :: tr)

/-- `doRequestAPIHost`: last-good IP first (if cached), then DNS, then the
alternate list. `att` is the outcome oracle for `client.Do` on each target. -/
def doRequestAPIHost {Resp : Type} (att : Target → Except String Resp) (a : API) :
    API × Except String Resp × List Target :=
  match a.lastGoodAlternateIP with
  | some lastIP =>
    match att (.byIP lastIP) with
    | .ok resp => (a, .ok resp, [.byIP lastIP])
    | .error _ =>
      let (a2, r, tr) := dnsThenAlternates att a a.alternateIPs
      (a2, r, .byIP lastIP :: tr)
  | none => dnsThenAlternates att a a.alternateIPs

/-! ## Shared request-body buffer of `doRequestAPIHost` (C9) -/

/-- What one `client.Do` call does to the shared `bytes.Buffer`: whether it
drained the buffer, and the outcome of the attempt. -/
structure AttemptSpec (Resp : Type) where
  consumesBody : Bool
  result : Except String Resp

/-- The buffer contents remaining after an attempt. -/
def bufferAfter (consumed : Bool) (buf : List Nat) : List Nat :=
  if consumed then [] else buf

/-- Alternate-IP attempts with the body each one sends: every attempt reads the
one shared buffer, which is drained by whichever attempt consumes it. -/
def tryAlternateBodies {Resp : Type} (att : Target → AttemptSpec Resp) :
    List IP → List Nat → List (Target × List Nat)
  | [], _ => []
  | ip :: rest, buf =>
    let sp := att (.byIP ip)
    match sp.result with
    | .error _ => (.byIP ip, buf) :: tryAlternateBodies att rest (bufferAfter sp.consumesBody buf)
    | .ok _ => [(.byIP ip, buf)]

/-- DNS attempt then alternates, with bodies sent. -/
def dnsThenAlternateBodies {Resp : Type} (att : Target → AttemptSpec Resp)
    (ips : List IP) (buf : List Nat) : List (Target × List Nat) :=
  let sp := att .byDNS
  match sp.result with
  | .ok _ => [(.byDNS, buf)]
  | .error _ => (.byDNS, buf) :: tryAlternateBodies att ips (bufferAfter sp.consumesBody buf)

/-- `doRequestAPIHost` restricted to what each attempt sends as its request
body: `data` is the JSON encoding of the request object, placed in a single
`bytes.Buffer` created once before the first attempt. -/
def doRequestAPIHostBodies {Resp : Type} (att : Target → AttemptSpec Resp) (a : API)
    (data : List Nat) : List (Target × List Nat) :=
  match a.lastGoodAlternateIP with
  | some lastIP =>
    let sp := att (.byIP lastIP)
    match sp.result with
    | .ok _ => [(.byIP lastIP, data)]
    | .error _ =>
      (.byIP lastIP, data) ::
        dnsThenAlternateBodies att a.alternateIPs (bufferAfter sp.consumesBody data)
  | none => dnsThenAlternateBodies att a.alternateIPs data

/-! ## `SetAlternateIPs` and `DownloadServersList` (`api` package) -/

/-- `ip.Equal(lastGood)` where `lastGood` may be the nil `net.IP`: Go's
`IP.Equal` with a nil argument is false for every parsed (non-nil) IP. -/
def ipEqualsOpt (ip : IP) : Option IP → Bool
  | none => false
  | some l => ip = l

/-- The loop of `SetAlternateIPs`: build the parsed IP list in order, dropping
unparseable strings, and record whether the old last-good IP was seen.
`parseIP` abstracts `net.ParseIP` (`none` = unparseable). -/
def buildAlternateList (parseIP : String → Option IP) (lastGood : Option IP) :
    List String → List IP × Bool
  | [] => ([], false)
  | ipStr :: rest =>
    match parseIP ipStr with
    | none => buildAlternateList parseIP lastGood rest
    | some ip =>
      let (l, ex) := buildAlternateList parseIP lastGood rest
      (ip :: l, ipEqualsOpt ip lastGood || ex)

/-- `SetAlternateIPs`: install the parsed list, clear the last-good IP unless it
appears in the new list, and return a nil error. -/
def SetAlternateIPs (parseIP : String → Option IP) (a : API) (IPs : List String) :
    API × Option String :=
  let (ipList, isLastIPExists) := buildAlternateList parseIP a.lastGoodAlternateIP IPs
  ({ alternateIPs := ipList,
     lastGoodAlternateIP := if isLastIPExists then a.lastGoodAlternateIP else none },
   none)

/-- `types.ServersInfoResponse`, reduced to the field `DownloadServersList`
reads back into the client (`servers.Config.API.IPAddresses`). -/
structure ServersInfoResponse where
  apiIPAddresses : List String
deriving DecidableEq, Repr

/-- `DownloadServersList`: on request success install the provider-returned
alternate-IP list via `SetAlternateIPs`; on failure return the error unchanged.
`requestResult` is the outcome oracle of the underlying servers.json request. -/
def DownloadServersList (parseIP : String → Option IP)
    (requestResult : Except String ServersInfoResponse) (a : API) :
    API × Except String ServersInfoResponse :=
  match requestResult with
  | .error e => (a, .error e)
  | .ok servers => ((SetAlternateIPs parseIP a servers.apiIPAddresses).1, .ok servers)

/-! ## WireGuard adapter for Windows (`vpn/wireguard/wireguard_windows.go`)

The adapter supervises an OS service. Its interactions with the Windows
service manager, the shell installer and `isServiceRunning` are effects,
embedded as outcome oracles. The `pauseRequireChan` select branch of the
supervision loop is omitted: the embedded traces contain no pause/resume. -/

/-- The fields of `internalVariables` the embedded operations touch
(`pauseRequireChan` and `isPaused` belong to the omitted pause protocol). -/
structure Internals where
  manualDNS : Option IP
  isRestartRequired : Bool
  isDisconnectRequested : Bool
deriving DecidableEq, Repr

/-- `setManualDNS` (`wireguard_windows.go:252-268`): a call whose address equals
the stored value returns immediately; otherwise the address is stored and, when
`isServiceRunning` reports true, the restart-required flag is set (the
`isServiceRunning` error path returns before the flag is set and is covered by
`running = false`). -/
def setManualDNS (running : Bool) (addr : IP) (st : Internals) : Internals :=
  if ipEqualsOpt addr st.manualDNS then st
  else
    let st2 : Internals := { st with manualDNS := some addr }
    if running then { st2 with isRestartRequired := true } else st2

/-- One poll of `getServiceStatus` during the service-start wait of
`installService`: the service is running, already stopped, still pending
(any other state), or the status call itself failed. -/
inductive StartObs where
  | runningOk
  | stopped
  | pending
  | statErr (e : String)
deriving DecidableEq, Repr

/-- Outcome oracles for one `installService` call. `installFound` tells whether
`OpenService` succeeded within the 3-minute install window; `startObs` lists the
status polls inside the 5-minute start window, its exhaustion being the start
timeout. -/
structure InstallEnv where
  configSaveErr : Option String
  shellInstallErr : Option String
  mgrConnectErr : Option String
  installFound : Bool
  startObs : List StartObs
deriving DecidableEq, Repr

/-- What an `installService` call produced: its returned error, whether the
deferred best-effort uninstall (`disconnectInternal`, run whenever
`isInstalled` or `isStarted` is still false) fired, and the states emitted. -/
structure InstallResult where
  err : Option String
  uninstallAttempted : Bool
  emitted : List StateInfo
deriving DecidableEq, Repr

/-- Modelled from the spec: `notifyConnectedStat` lives in the cross-platform
wireguard.go, which is not among the sources; per the spec it emits a CONNECTED
`StateInfo` with `is_can_pause` true once the service is up. -/
def connectedNotification : StateInfo :=
  { NewStateInfo CONNECTED "" with IsCanPause := true }

/-- The service-start wait of `installService` (`wireguard_windows.go:424-441`):
poll until the service is Running (success: CONNECTED is emitted), return an
error on a status failure or on Stopped, time out when no poll ever leaves the
pending states. -/
def startLoop : List StartObs → InstallResult
  | [] => ⟨some "service not started (timeout)", true, []⟩
  | .statErr e :: _ => ⟨some ("service start error: " ++ e), true, []⟩
  | .stopped :: _ => ⟨some "WireGuard service stopped", true, []⟩
  | .runningOk :: _ => ⟨none, false, [connectedNotification]⟩
  | .pending :: rest => startLoop rest

/-- `installService` (`wireguard_windows.go:361-461`): save the configuration,
run the installer, connect to the service manager, wait for the service to
appear, then wait for it to start; any failure leaves `isInstalled`/`isStarted`
false so the deferred best-effort uninstall runs. -/
def installService (env : InstallEnv) : InstallResult :=
  match env.configSaveErr with
  | some e => ⟨some ("failed to save config file: " ++ e), true, []⟩
  | none =>
  match env.shellInstallErr with
  | some e => ⟨some ("failed to install WireGuard service: " ++ e), true, []⟩
  | none =>
  match env.mgrConnectErr with
  | some e => ⟨some ("failed to connect windows service manager: " ++ e), true, []⟩
  | none =>
  if env.installFound then startLoop env.startObs
  else ⟨some "service not installed (timeout)", true, []⟩

/-- One poll of `getServiceStatus` inside the supervision loop of `connect`:
the loop breaks when the service is gone (one of the four absent-service error
codes) or Stopped, and keeps polling otherwise (including on any other error,
which leaves the status distinct from Stopped). -/
inductive LoopPoll where
  | gone
  | stopped
  | stillRunning
  | otherErr (e : String)
deriving DecidableEq, Repr

/-- Whether a poll breaks the supervision loop (`wireguard_windows.go:133-142`). -/
def LoopPoll.terminal : LoopPoll → Bool
  | .gone => true
  | .stopped => true
  | .stillRunning => false
  | .otherErr _ => false

/-- One event of a supervision-loop trace: a loop iteration observing a service
poll, or a concurrent `setManualDNS` call landing between iterations. -/
inductive WGAction where
  | iter (p : LoopPoll)
  | callSetManualDNS (addr : IP)
deriving DecidableEq, Repr

/-- The `isRestartRequired` branch of one loop iteration
(`wireguard_windows.go:195-211`): clear the flag, emit RECONNECTING, uninstall
and reinstall; a failure of either call is only logged. `uninstallErr` and
`ienv` are the oracles for those two calls. -/
def restartEmissions (uninstallErr : Option String) (ienv : InstallEnv) : List StateInfo :=
  NewStateInfo RECONNECTING "Reconnecting with new connection parameters" ::
    (match uninstallErr with
     | some _ => []
     | none => (installService ienv).emitted)

/-- The state change of the restart branch: fire only when the flag is up. -/
def restartStep (uninstallErr : Option String) (ienv : InstallEnv) (st : Internals) :
    Internals × List StateInfo :=
  if st.isRestartRequired then
    ({ st with isRestartRequired := false }, restartEmissions uninstallErr ienv)
  else (st, [])

/-- The supervision loop of `connect` (`wireguard_windows.go:132-212`), driven
by a finite trace: each iteration polls the service (breaking on a terminal
poll before anything else) and then handles a pending restart request.
Returns the final internals, the emitted states and whether the loop broke. -/
def runLoop (running : Bool) (uninstallErr : Option String) (ienv : InstallEnv)
    (st : Internals) : List WGAction → Internals × List StateInfo × Bool
  | [] => (st, [], false)
  | .callSetManualDNS addr :: rest =>
    runLoop running uninstallErr ienv (setManualDNS running addr st) rest
  | .iter p :: rest =>
    if p.terminal then (st, [], true)
    else
      let (st2, out) := restartStep uninstallErr ienv st
      let (st3, out2, broke) := runLoop running uninstallErr ienv st2 rest
      (st3, out ++ out2, broke)

/-- Outcome of one `connect` call. `stillRunning` is a model artifact: the
finite trace ended while the real loop would still be polling. -/
inductive ConnectOutcome where
  | err (e : String)
  | ok
  | stillRunning
deriving DecidableEq, Repr

/-- Outcome oracles for one `connect` call. `disconnectDuringInstall` is the
value of `isDisconnectRequested` observed right after `installService`
succeeded (it can be raised concurrently while the service was coming up). -/
structure ConnectEnv where
  preDisconnectErr : Option String
  mgrConnectErr : Option String
  install : InstallEnv
  disconnectDuringInstall : Bool
  postInstallUninstallErr : Option String
  svcRunningForDNS : Bool
  restartUninstallErr : Option String
  restartInstall : InstallEnv
  loopActions : List WGAction
deriving DecidableEq, Repr

/-- What a `connect` call did: its return value, the states it emitted, whether
`installService` was ever invoked, whether the best-effort uninstall inside a
failed `installService` ran, and the final internals. -/
structure ConnectResult where
  outcome : ConnectOutcome
  emitted : List StateInfo
  installInvoked : Bool
  bestEffortUninstall : Bool
  final : Internals
deriving DecidableEq, Repr

/-- `connect` (`wireguard_windows.go:86-215`): refuse when disconnection was
already requested; disconnect any previous instance; connect to the service
manager; install the service; if disconnection arrived meanwhile, uninstall and
return; otherwise supervise until the loop breaks, returning nil. -/
def connect (st : Internals) (env : ConnectEnv) : ConnectResult :=
  if st.isDisconnectRequested then
    ⟨.err "disconnection already requested for this object. To make a new connection, please, initialize new one",
     [], false, false, st⟩
  else
    match env.preDisconnectErr with
    | some e => ⟨.err ("failed to disconnect before new connection: " ++ e), [], false, false, st⟩
    | none =>
    match env.mgrConnectErr with
    | some e => ⟨.err ("failed to connect to windows service manager : " ++ e), [], false, false, st⟩
    | none =>
      let ir := installService env.install
      match ir.err with
      | some e => ⟨.err ("failed to install windows service: " ++ e), ir.emitted, true,
          ir.uninstallAttempted, st⟩
      | none =>
        if env.disconnectDuringInstall then
          match env.postInstallUninstallErr with
          | some e => ⟨.err e, ir.emitted, true, ir.uninstallAttempted, st⟩
          | none => ⟨.ok, ir.emitted, true, ir.uninstallAttempted, st⟩
        else
          let (st2, out, broke) := runLoop env.svcRunningForDNS env.restartUninstallErr
            env.restartInstall st env.loopActions
          ⟨if broke then .ok else .stillRunning, ir.emitted ++ out, true,
            ir.uninstallAttempted, st2⟩

/-- `disconnect` (`wireguard_windows.go:217-220`): raise the flag, then
`disconnectInternal` (resume request plus uninstall, whose outcome is the
oracle `uninstallResult`). -/
def disconnect (uninstallResult : Option String) (st : Internals) :
    Internals × Option String :=
  ({ st with isDisconnectRequested := true }, uninstallResult)

/-- Number of RECONNECTING states in an emission list. -/
def countReconnecting (l : List StateInfo) : Nat :=
  l.countP (fun si => decide (si.State = RECONNECTING))

end Ivpn

namespace Ivpn

/-! ## Helper lemmas for the state model -/

theorem parseStateSwitch_miss (t : String) (h : t ∉ parseStateTable) :
    parseStateSwitch t = (DISCONNECTED, some ("unexpected state:" ++ t)) := by
  simp only [parseStateTable, List.mem_cons, List.not_mem_nil, or_false, not_or] at h
  obtain ⟨h1, h2, h3, h4, h5, h6, h7, h8, h9, h10⟩ := h
  rw [parseStateSwitch, if_neg h1, if_neg h2, if_neg h3, if_neg h4, if_neg h5,
    if_neg h6, if_neg h7, if_neg h8, if_neg h9, if_neg h10]

theorem parseStateSwitch_mem (t : String) (h : t ∈ parseStateTable) :
    (parseStateSwitch t).2 = none ∧ (parseStateSwitch t).1 ≠ DISCONNECTED := by
  fin_cases h <;> exact ⟨by decide, by decide⟩

end Ivpn

namespace Ivpn

/-! ## Claim C7 -/

/-- C7 (amended): the round trip `ParseState (State.String s) = (s, nil)` holds for
every enumerated state except DISCONNECTED, GETCONFIG, ASSIGNIP and ADDROUTES
(for those three only the underscore spellings GET_CONFIG / ASSIGN_IP / ADD_ROUTES
are accepted, and they map to the respective states); `ParseState` depends only on
the input trimmed of surrounding whitespace and punctuation; any string whose
trimmed form is outside the accept table fails with an "unexpected state" error;
and a successful parse never returns DISCONNECTED. -/
theorem C7_parseState_spec :
    (∀ s : State, DISCONNECTED ≤ s → s ≤ EXITING →
      s ≠ DISCONNECTED → s ≠ GETCONFIG → s ≠ ASSIGNIP → s ≠ ADDROUTES →
      ParseState (State.String s) = (s, none))
    ∧ ParseState "GET_CONFIG" = (GETCONFIG, none)
    ∧ ParseState "ASSIGN_IP" = (ASSIGNIP, none)
    ∧ ParseState "ADD_ROUTES" = (ADDROUTES, none)
    ∧ (∀ s t : String, goTrim trimCutset s = goTrim trimCutset t →
        ParseState s = ParseState t)
    ∧ ParseState " \t..CONNECTED;;,  " = (CONNECTED, none)
    ∧ (∀ str : String, goTrim trimCutset str ∉ parseStateTable →
        ParseState str = (DISCONNECTED, some ("unexpected state:" ++ goTrim trimCutset str)))
    ∧ (∀ (str : String) (st : State), ParseState str = (st, none) → st ≠ DISCONNECTED) := by
  refine ⟨?_, by decide, by decide, by decide, ?_, by decide, ?_, ?_⟩
  · intro s h0 h1 h2 h3 h4 h5
    simp only [DISCONNECTED, EXITING] at h0 h1
    interval_cases s
    all_goals first
      | (exact absurd (by decide) h2)
      | (exact absurd (by decide) h3)
      | (exact absurd (by decide) h4)
      | (exact absurd (by decide) h5)
      | decide
  · intro s t h
    unfold ParseState
    rw [h]
  · intro str h
    exact parseStateSwitch_miss _ h
  · intro str st h
    by_cases hm : goTrim trimCutset str ∈ parseStateTable
    · have := parseStateSwitch_mem _ hm
      unfold ParseState at h
      rw [h] at this
      simpa using this.2
    · rw [show ParseState str = parseStateSwitch (goTrim trimCutset str) from rfl,
        parseStateSwitch_miss _ hm] at h
      exact absurd (congrArg Prod.snd h) (by simp)

/-- Witness for C7: the round-trip and alias statements applied at concrete inputs. -/
theorem C7_parseState_spec_witness :
    ParseState (State.String CONNECTED) = (CONNECTED, none)
    ∧ ParseState "ASSIGN_IP" = (ASSIGNIP, none) :=
  ⟨C7_parseState_spec.1 CONNECTED (by decide) (by decide) (by decide) (by decide)
    (by decide) (by decide),
   C7_parseState_spec.2.2.1⟩

/-- Counterexample to C7 as stated: GETCONFIG is an enumerated state other than
DISCONNECTED, yet parsing its canonical string form "GETCONFIG" fails — only the
underscore form "GET_CONFIG" is in the parse table. -/
theorem C7_roundtrip_fails_GETCONFIG :
    ParseState (State.String GETCONFIG)
      = (DISCONNECTED, some "unexpected state:GETCONFIG") := by decide

/-! ## Claim C8 -/

/-- C8 (amended): `NewStateInfo` leaves every CONNECTED-only field and the
EXITING-only field at its zero value; `NewStateInfoConnected` produces a record
whose state is CONNECTED, whose CONNECTED-only fields other than `ExitServerID`
come from its arguments, whose `ExitServerID` is left empty (the constructor has
no such argument), and whose `IsAuthError` is false. -/
theorem C8_stateInfo_constructors :
    (∀ (st : State) (d : String),
      (NewStateInfo st d).State = st ∧ (NewStateInfo st d).Description = d ∧
      (NewStateInfo st d).IsTCP = false ∧ (NewStateInfo st d).ClientIP = none ∧
      (NewStateInfo st d).ClientPort = 0 ∧ (NewStateInfo st d).ServerIP = none ∧
      (NewStateInfo st d).ServerPort = 0 ∧ (NewStateInfo st d).ExitServerID = "" ∧
      (NewStateInfo st d).IsCanPause = false ∧ (NewStateInfo st d).IsAuthError = false)
    ∧ (∀ (isTCP : Bool) (clientIP : Option IP) (localPort : Int)
        (serverIP : Option IP) (destPort : Int) (isCanPause : Bool),
      (NewStateInfoConnected isTCP clientIP localPort serverIP destPort isCanPause).State
          = CONNECTED ∧
      (NewStateInfoConnected isTCP clientIP localPort serverIP destPort isCanPause).IsTCP
          = isTCP ∧
      (NewStateInfoConnected isTCP clientIP localPort serverIP destPort isCanPause).ClientIP
          = clientIP ∧
      (NewStateInfoConnected isTCP clientIP localPort serverIP destPort isCanPause).ClientPort
          = localPort ∧
      (NewStateInfoConnected isTCP clientIP localPort serverIP destPort isCanPause).ServerIP
          = serverIP ∧
      (NewStateInfoConnected isTCP clientIP localPort serverIP destPort isCanPause).ServerPort
          = destPort ∧
      (NewStateInfoConnected isTCP clientIP localPort serverIP destPort isCanPause).IsCanPause
          = isCanPause ∧
      (NewStateInfoConnected isTCP clientIP localPort serverIP destPort isCanPause).ExitServerID
          = "" ∧
      (NewStateInfoConnected isTCP clientIP localPort serverIP destPort isCanPause).IsAuthError
          = false) :=
  ⟨fun _ _ => ⟨rfl, rfl, rfl, rfl, rfl, rfl, rfl, rfl, rfl, rfl⟩,
   fun _ _ _ _ _ _ => ⟨rfl, rfl, rfl, rfl, rfl, rfl, rfl, rfl, rfl⟩⟩

/-- Counterexample to C8 as stated: with every argument concrete and non-zero,
the CONNECTED-only field `ExitServerID` of the record built by
`NewStateInfoConnected` is the empty string — it is not populated from any
argument (the constructor takes none for it). -/
theorem C8_exitServerID_not_populated :
    (NewStateInfoConnected true (some [100, 1, 2, 3]) 52000
      (some [185, 9, 8, 7]) 58237 true).ExitServerID = "" := by decide

/-! ## Claim C10 -/

/-- C10: `State.String` is total and panic-free: each in-range value maps to its
canonical name, every out-of-range value maps to "<Unknown>", and the result is
never the out-of-bounds-indexing sentinel. -/
theorem C10_stateString_total :
    State.String DISCONNECTED = "DISCONNECTED"
    ∧ State.String CONNECTING = "CONNECTING"
    ∧ State.String WAIT = "WAIT"
    ∧ State.String AUTH = "AUTH"
    ∧ State.String GETCONFIG = "GETCONFIG"
    ∧ State.String ASSIGNIP = "ASSIGNIP"
    ∧ State.String ADDROUTES = "ADDROUTES"
    ∧ State.String CONNECTED = "CONNECTED"
    ∧ State.String RECONNECTING = "RECONNECTING"
    ∧ State.String TCP_CONNECT = "TCP_CONNECT"
    ∧ State.String EXITING = "EXITING"
    ∧ (∀ s : State, s < DISCONNECTED ∨ s > EXITING → State.String s = "<Unknown>")
    ∧ (∀ s : State, State.String s ≠ indexPanic) := by
  refine ⟨by decide, by decide, by decide, by decide, by decide, by decide, by decide,
    by decide, by decide, by decide, by decide, ?_, ?_⟩
  · intro s h
    unfold State.String
    rw [if_pos h]
  · intro s
    unfold State.String
    split_ifs with h
    · decide
    · simp only [DISCONNECTED, EXITING, not_or, not_lt] at h
      obtain ⟨h0, h1⟩ := h
      interval_cases s <;> decide

/-- Witness for C10: the out-of-range branches applied at concrete values. -/
theorem C10_stateString_total_witness :
    State.String 11 = "<Unknown>" ∧ State.String (-1) ≠ indexPanic :=
  ⟨C10_stateString_total.2.2.2.2.2.2.2.2.2.2.2.1 11 (by decide),
   C10_stateString_total.2.2.2.2.2.2.2.2.2.2.2.2 (-1)⟩

end Ivpn

namespace Ivpn

/-! ## Helper lemmas for the pinned dialer -/

theorem findPinnedKey_eq_mem (pins : List String) (h : String) :
    findPinnedKey pins h = true ↔ h ∈ pins := by
  induction pins with
  | nil => simp [findPinnedKey]
  | cons a rest ih =>
    by_cases hh : a = h
    · simp [findPinnedKey, hh]
    · simp [findPinnedKey, hh, ih, Ne.symm hh]

theorem getLast?_or_shift {α : Type} (e : α) (l : List α) (acc : Option α) :
    ((e :: l).getLast?).or acc = (l.getLast?).or (some e) := by
  cases l with
  | nil => simp
  | cons y ys =>
    rw [List.getLast?_cons_cons]
    cases h : (y :: ys).getLast? with
    | none => simp [List.getLast?_eq_none_iff] at h
    | some x => simp

theorem certPinLoop_ok_iff (hash64 : Der → String) (pins : List String)
    (certs : List PeerCert) (acc : Option String) :
    certPinLoop hash64 pins certs acc = .ok () ↔
      ∃ der, Except.ok der ∈ certs ∧ hash64 der ∈ pins := by
  induction certs generalizing acc with
  | nil => simp [certPinLoop]
  | cons c rest ih =>
    match c with
    | .error e =>
      simp only [certPinLoop, ih]
      constructor
      · rintro ⟨der, hmem, hpin⟩
        exact ⟨der, List.mem_cons_of_mem _ hmem, hpin⟩
      · rintro ⟨der, hmem, hpin⟩
        rcases List.mem_cons.mp hmem with h | h
        · exact absurd h (by simp)
        · exact ⟨der, h, hpin⟩
    | .ok der0 =>
      by_cases hp : findPinnedKey pins (hash64 der0) = true
      · simp only [certPinLoop, if_pos hp]
        constructor
        · intro _
          exact ⟨der0, List.mem_cons_self _ _, (findPinnedKey_eq_mem _ _).mp hp⟩
        · intro _
          trivial
      · simp only [certPinLoop, if_neg hp, ih]
        constructor
        · rintro ⟨der, hmem, hpin⟩
          exact ⟨der, List.mem_cons_of_mem _ hmem, hpin⟩
        · rintro ⟨der, hmem, hpin⟩
          rcases List.mem_cons.mp hmem with h | h
          · rcases Except.ok.inj h with rfl
            exact absurd ((findPinnedKey_eq_mem _ _).mpr hpin) hp
          · exact ⟨der, h, hpin⟩

theorem certPinLoop_miss (hash64 : Der → String) (pins : List String)
    (certs : List PeerCert) (acc : Option String)
    (h : ∀ der, Except.ok der ∈ certs → hash64 der ∉ pins) :
    certPinLoop hash64 pins certs acc
      = .error (((certs.filterMap certErr).getLast?).or acc) := by
  induction certs generalizing acc with
  | nil => simp [certPinLoop]
  | cons c rest ih =>
    match c with
    | .error e =>
      have hrest : ∀ der, Except.ok der ∈ rest → hash64 der ∉ pins :=
        fun der hm => h der (List.mem_cons_of_mem _ hm)
      rw [show certPinLoop hash64 pins (Except.error e :: rest) acc
          = certPinLoop hash64 pins rest (some e) from rfl, ih _ hrest]
      have hfm : (Except.error e :: rest).filterMap certErr
          = e :: rest.filterMap certErr := by
        simp [certErr]
      rw [hfm, getLast?_or_shift]
    | .ok der0 =>
      have hnot : ¬ findPinnedKey pins (hash64 der0) = true := fun hp =>
        h der0 (List.mem_cons_self _ _) ((findPinnedKey_eq_mem _ _).mp hp)
      have hrest : ∀ der, Except.ok der ∈ rest → hash64 der ∉ pins :=
        fun der hm => h der (List.mem_cons_of_mem _ hm)
      rw [show certPinLoop hash64 pins (Except.ok der0 :: rest) acc
          = if findPinnedKey pins (hash64 der0) then .ok ()
            else certPinLoop hash64 pins rest acc from rfl,
        if_neg hnot, ih _ hrest]
      have hfm : (Except.ok der0 :: rest).filterMap certErr
          = rest.filterMap certErr := by
        simp [certErr]
      rw [hfm]

end Ivpn

namespace Ivpn

/-! ## Claim C1 -/

/-- C1 (amended): for every TLS connection produced by the pinned dialer, the
connection is accepted iff some peer certificate has a marshallable public key
whose SPKI hash (computed by `hash64`) is a member of the pin set; when no hash
matches, the dialer fails with a pin-miss error carrying the last
SPKI-marshalling error when one occurred, and returns no connection to the
HTTP client (so no response bytes can be read) — but it does not close the
handshaken connection: the connection is handed over exactly on acceptance and
otherwise dropped still open, never closed. -/
theorem C1_pinned_dialer (hash64 : Der → String) (certHashes : List String)
    (peerCerts : List PeerCert) :
    (makeDialer hash64 certHashes (.conn peerCerts) = .conn ↔
      ∃ der, Except.ok der ∈ peerCerts ∧ hash64 der ∈ certHashes)
    ∧ ((∀ der, Except.ok der ∈ peerCerts → hash64 der ∉ certHashes) →
        makeDialer hash64 certHashes (.conn peerCerts)
          = .err (pinMissError ((peerCerts.filterMap certErr).getLast?)))
    ∧ (dialerConnFate hash64 certHashes peerCerts = .handedToClient ↔
        makeDialer hash64 certHashes (.conn peerCerts) = .conn)
    ∧ dialerConnFate hash64 certHashes peerCerts ≠ .closed := by
  refine ⟨?_, ?_, ?_, ?_⟩
  · constructor
    · intro hc
      by_contra hnone
      push_neg at hnone
      have hmiss := certPinLoop_miss hash64 certHashes peerCerts none hnone
      rw [show makeDialer hash64 certHashes (.conn peerCerts)
          = (match certPinLoop hash64 certHashes peerCerts none with
             | .ok () => DialerResult.conn
             | .error lastErr => .err (pinMissError lastErr)) from rfl, hmiss] at hc
      exact absurd hc (by simp)
    · intro hex
      have hok := (certPinLoop_ok_iff hash64 certHashes peerCerts none).mpr hex
      rw [show makeDialer hash64 certHashes (.conn peerCerts)
          = (match certPinLoop hash64 certHashes peerCerts none with
             | .ok () => DialerResult.conn
             | .error lastErr => .err (pinMissError lastErr)) from rfl, hok]
  · intro hmissall
    have hmiss := certPinLoop_miss hash64 certHashes peerCerts none hmissall
    rw [show makeDialer hash64 certHashes (.conn peerCerts)
        = (match certPinLoop hash64 certHashes peerCerts none with
           | .ok () => DialerResult.conn
           | .error lastErr => .err (pinMissError lastErr)) from rfl, hmiss]
    simp
  · cases h : certPinLoop hash64 certHashes peerCerts none with
    | ok u => cases u; simp [dialerConnFate, makeDialer, h]
    | error lastErr => simp [dialerConnFate, makeDialer, h]
  · cases h : certPinLoop hash64 certHashes peerCerts none with
    | ok u => cases u; simp [dialerConnFate, h]
    | error lastErr => simp [dialerConnFate, h]

/-- Witness for C1: a chain whose third certificate matches the single pin is
accepted; with an empty pin set the same chain is refused with a pin-miss
error carrying its last marshalling error, and the refused connection is not
closed. -/
theorem C1_pinned_dialer_witness :
    makeDialer (fun der => if der = [1] then "A" else "B") ["A"]
      (.conn [.ok [2], .error "boom", .ok [1]]) = .conn
    ∧ makeDialer (fun der => if der = [1] then "A" else "B") []
      (.conn [.error "e1", .ok [5], .error "e2"])
        = .err (pinMissError (some "e2"))
    ∧ dialerConnFate (fun der => if der = [1] then "A" else "B") []
      [.error "e1", .ok [5], .error "e2"] ≠ .closed := by
  refine ⟨?_, ?_, ?_⟩
  · exact (C1_pinned_dialer (fun der => if der = [1] then "A" else "B") ["A"]
      [.ok [2], .error "boom", .ok [1]]).1.mpr ⟨[1], by simp, by decide⟩
  · have := (C1_pinned_dialer (fun der => if der = [1] then "A" else "B") []
      [.error "e1", .ok [5], .error "e2"]).2.1 (by intro der _ hmem; simp at hmem)
    simpa using this
  · exact (C1_pinned_dialer (fun der => if der = [1] then "A" else "B") []
      [.error "e1", .ok [5], .error "e2"]).2.2.2

/-- Counterexample to C1 as stated: at a concrete pin-miss input the dialer
does fail with the pin-miss error, yet the handshaken connection is dropped
still open — `makeDialer` contains no `Close` call, so the claimed "closes the
connection" is false of the code. -/
theorem C1_no_close_on_pin_miss :
    makeDialer (fun _ => "H") ["other"] (.conn [.ok [3]])
      = .err (pinMissError none)
    ∧ dialerConnFate (fun _ => "H") ["other"] [.ok [3]] = .leakedOpen
    ∧ ConnFate.leakedOpen ≠ ConnFate.closed := by
  refine ⟨?_, ?_, ?_⟩ <;> decide

/-! ## Claim C5 -/

/-- C5: once `disconnect` has been requested on an adapter instance, every
subsequent `connect` call on it returns an error immediately, invokes no
service install, emits no state, and leaves the flag set (so all later calls
fail the same way). -/
theorem C5_connect_after_disconnect (st : Internals) (uninstallResult : Option String)
    (env : ConnectEnv) :
    (∃ e, (connect (disconnect uninstallResult st).1 env).outcome = .err e)
    ∧ (connect (disconnect uninstallResult st).1 env).installInvoked = false
    ∧ (connect (disconnect uninstallResult st).1 env).emitted = []
    ∧ (connect (disconnect uninstallResult st).1 env).final.isDisconnectRequested = true := by
  refine ⟨⟨"disconnection already requested for this object. To make a new connection, please, initialize new one", ?_⟩, ?_, ?_, ?_⟩ <;>
    simp [connect, disconnect]

/-! ## Claim C3 -/

theorem buildAlternateList_spec (parseIP : String → Option IP) (lastGood : Option IP)
    (IPs : List String) :
    buildAlternateList parseIP lastGood IPs
      = (IPs.filterMap parseIP,
         (IPs.filterMap parseIP).any (fun ip => ipEqualsOpt ip lastGood)) := by
  induction IPs with
  | nil => simp [buildAlternateList]
  | cons s rest ih =>
    cases hp : parseIP s with
    | none => simp [buildAlternateList, hp, ih]
    | some ip => simp [buildAlternateList, hp, ih, List.any_cons]

/-- C3: `SetAlternateIPs` returns a nil error, installs exactly the parseable
addresses (in order, unparseable ones silently dropped), and clears the cached
last-good IP unless it equals a member of the newly installed list; it is the
function `DownloadServersList` applies on every successful server-list
download. -/
theorem C3_setAlternateIPs (parseIP : String → Option IP) (a : API) (IPs : List String) :
    (SetAlternateIPs parseIP a IPs).2 = none
    ∧ (SetAlternateIPs parseIP a IPs).1.alternateIPs = IPs.filterMap parseIP
    ∧ (SetAlternateIPs parseIP a IPs).1.lastGoodAlternateIP
        = (if (IPs.filterMap parseIP).any (fun ip => ipEqualsOpt ip a.lastGoodAlternateIP)
           then a.lastGoodAlternateIP else none)
    ∧ (∀ l, a.lastGoodAlternateIP = some l →
        (SetAlternateIPs parseIP a IPs).1.lastGoodAlternateIP
          = (if l ∈ IPs.filterMap parseIP then some l else none))
    ∧ (∀ servers, DownloadServersList parseIP (.ok servers) a
        = ((SetAlternateIPs parseIP a servers.apiIPAddresses).1, .ok servers)) := by
  refine ⟨?_, ?_, ?_, ?_, ?_⟩
  · simp [SetAlternateIPs, buildAlternateList_spec]
  · simp [SetAlternateIPs, buildAlternateList_spec]
  · simp [SetAlternateIPs, buildAlternateList_spec]
  · intro l hl
    simp only [SetAlternateIPs, buildAlternateList_spec, hl]
    by_cases hm : l ∈ IPs.filterMap parseIP
    · rw [if_pos hm]
      rw [if_pos]
      exact List.any_eq_true.mpr ⟨l, hm, by simp [ipEqualsOpt]⟩
    · rw [if_neg hm]
      rw [if_neg]
      intro hany
      rcases List.any_eq_true.mp hany with ⟨ip, hip, heq⟩
      simp [ipEqualsOpt] at heq
      exact hm (heq ▸ hip)
  · intro servers
    rfl

/-- Witness for C3: replacing the list ["10.0.0.1", "bad", "10.0.0.2"] (with
"bad" unparseable) while the cached last-good IP is absent from the new list
clears it. -/
theorem C3_setAlternateIPs_witness :
    (SetAlternateIPs (fun s => if s = "10.0.0.1" then some [10, 0, 0, 1]
        else if s = "10.0.0.2" then some [10, 0, 0, 2] else none)
      ⟨[[9, 9, 9, 9]], some [9, 9, 9, 9]⟩
      ["10.0.0.1", "bad", "10.0.0.2"]).1.lastGoodAlternateIP = none := by
  have := (C3_setAlternateIPs (fun s => if s = "10.0.0.1" then some [10, 0, 0, 1]
        else if s = "10.0.0.2" then some [10, 0, 0, 2] else none)
      ⟨[[9, 9, 9, 9]], some [9, 9, 9, 9]⟩
      ["10.0.0.1", "bad", "10.0.0.2"]).2.2.2.1 [9, 9, 9, 9] rfl
  simpa using this

end Ivpn

namespace Ivpn

/-! ## Helper lemmas for the shared body buffer -/

theorem bufferAfter_nil (c : Bool) : bufferAfter c [] = [] := by
  cases c <;> rfl

theorem tryAlternateBodies_empty_buf {Resp : Type} (att : Target → AttemptSpec Resp)
    (ips : List IP) : ∀ p ∈ tryAlternateBodies att ips [], p.2 = ([] : List Nat) := by
  induction ips with
  | nil => simp [tryAlternateBodies]
  | cons ip rest ih =>
    intro p hp
    simp only [tryAlternateBodies] at hp
    cases hres : (att (Target.byIP ip)).result with
    | error e =>
      rw [hres] at hp
      simp only [bufferAfter_nil] at hp
      rcases List.mem_cons.mp hp with h | h
      · rw [h]
      · exact ih p h
    | ok r =>
      rw [hres] at hp
      rcases List.mem_cons.mp hp with h | h
      · rw [h]
      · simp at h
  
theorem dnsThenAlternateBodies_empty_buf {Resp : Type} (att : Target → AttemptSpec Resp)
    (ips : List IP) : ∀ p ∈ dnsThenAlternateBodies att ips [], p.2 = ([] : List Nat) := by
  intro p hp
  simp only [dnsThenAlternateBodies] at hp
  cases hres : (att Target.byDNS).result with
  | ok r =>
    rw [hres] at hp
    rcases List.mem_cons.mp hp with h | h
    · rw [h]
    · simp at h
  | error e =>
    rw [hres] at hp
    simp only [bufferAfter_nil] at hp
    rcases List.mem_cons.mp hp with h | h
    · rw [h]
    · exact tryAlternateBodies_empty_buf att ips p h

theorem all_snd_isEmpty_of_forall {α : Type} (l : List (α × List Nat))
    (h : ∀ p ∈ l, p.2 = ([] : List Nat)) :
    (l.all (fun p => p.2.isEmpty)) = true := by
  rw [List.all_eq_true]
  intro p hp
  rw [h p hp]
  rfl

/-! ## Claim C9 -/

/-- C9: all failover attempts of `doRequestAPIHost` share one request-body
buffer created once before the first attempt: the first attempt sends the full
JSON encoding, and once the first attempt has consumed the buffer every
subsequent attempt (DNS and each alternate IP) sends an empty request body. -/
theorem C9_shared_body_buffer {Resp : Type} (att : Target → AttemptSpec Resp)
    (a : API) (data : List Nat) :
    ((doRequestAPIHostBodies att a data).map Prod.snd).head? = some data
    ∧ (∀ ip, a.lastGoodAlternateIP = some ip →
        (att (Target.byIP ip)).consumesBody = true →
        ((doRequestAPIHostBodies att a data).tail.all (fun p => p.2.isEmpty)) = true)
    ∧ (a.lastGoodAlternateIP = none →
        (att Target.byDNS).consumesBody = true →
        ((doRequestAPIHostBodies att a data).tail.all (fun p => p.2.isEmpty)) = true) := by
  refine ⟨?_, ?_, ?_⟩
  · cases hlg : a.lastGoodAlternateIP with
    | some lastIP =>
      simp only [doRequestAPIHostBodies, hlg]
      cases hres : (att (Target.byIP lastIP)).result <;> simp [hres]
    | none =>
      simp only [doRequestAPIHostBodies, hlg, dnsThenAlternateBodies]
      cases hres : (att Target.byDNS).result <;> simp [hres]
  · intro ip hlg hcons
    simp only [doRequestAPIHostBodies, hlg]
    cases hres : (att (Target.byIP ip)).result with
    | ok r => simp [hres]
    | error e =>
      simp only [hres, List.tail_cons, hcons, bufferAfter]
      exact all_snd_isEmpty_of_forall _ (by
        simpa using dnsThenAlternateBodies_empty_buf att a.alternateIPs)
  · intro hlg hcons
    simp only [doRequestAPIHostBodies, hlg, dnsThenAlternateBodies]
    cases hres : (att Target.byDNS).result with
    | ok r => simp [hres]
    | error e =>
      simp only [hres, List.tail_cons, hcons, bufferAfter]
      exact all_snd_isEmpty_of_forall _ (by
        simpa using tryAlternateBodies_empty_buf att a.alternateIPs)

/-- Witness for C9: a cached last-good IP whose attempt consumes the buffer and
fails leaves the DNS and alternate attempts sending empty bodies. -/
theorem C9_shared_body_buffer_witness :
    (((doRequestAPIHostBodies
        (fun t => match t with
          | Target.byDNS => ⟨true, (Except.error "x" : Except String Nat)⟩
          | Target.byIP _ => ⟨true, Except.error "y"⟩)
        ⟨[[1]], some [2]⟩ [7, 7]).map Prod.snd).head? = some [7, 7])
    ∧ (((doRequestAPIHostBodies
        (fun t => match t with
          | Target.byDNS => ⟨true, (Except.error "x" : Except String Nat)⟩
          | Target.byIP _ => ⟨true, Except.error "y"⟩)
        ⟨[[1]], some [2]⟩ [7, 7]).tail.all (fun p => p.2.isEmpty)) = true) :=
  ⟨(C9_shared_body_buffer
      (fun t => match t with
        | Target.byDNS => ⟨true, (Except.error "x" : Except String Nat)⟩
        | Target.byIP _ => ⟨true, Except.error "y"⟩)
      ⟨[[1]], some [2]⟩ [7, 7]).1,
   (C9_shared_body_buffer
      (fun t => match t with
        | Target.byDNS => ⟨true, (Except.error "x" : Except String Nat)⟩
        | Target.byIP _ => ⟨true, Except.error "y"⟩)
      ⟨[[1]], some [2]⟩ [7, 7]).2.1 [2] rfl rfl⟩

end Ivpn

namespace Ivpn

/-! ## Helper lemmas for the failover algorithm -/

theorem tryAlternateIPs_all_fail {Resp : Type} (att : Target → Except String Resp)
    (a : API) (ips : List IP)
    (h : ∀ ip ∈ ips, ∃ e, att (Target.byIP ip) = .error e) :
    tryAlternateIPs att a ips = (a, none, ips.map Target.byIP) := by
  induction ips with
  | nil => rfl
  | cons ip rest ih =>
    obtain ⟨e, he⟩ := h ip (List.mem_cons_self _ _)
    have hrest := ih (fun ip2 hm => h ip2 (List.mem_cons_of_mem _ hm))
    simp only [tryAlternateIPs, he, hrest, List.map_cons]

theorem tryAlternateIPs_first_success {Resp : Type} (att : Target → Except String Resp)
    (a : API) (pre : List IP) (ip0 : IP) (rest : List IP) (r0 : Resp)
    (hpre : ∀ ip ∈ pre, ∃ e, att (Target.byIP ip) = .error e)
    (hok : att (Target.byIP ip0) = .ok r0) :
    tryAlternateIPs att a (pre ++ ip0 :: rest)
      = (saveLastGoodAlternateIP a (some ip0), some r0,
         pre.map Target.byIP ++ [Target.byIP ip0]) := by
  induction pre with
  | nil =>
    simp only [List.nil_append, tryAlternateIPs, hok, List.map_nil]
  | cons ip pre2 ih =>
    obtain ⟨e, he⟩ := hpre ip (List.mem_cons_self _ _)
    have h2 := ih (fun ip2 hm => hpre ip2 (List.mem_cons_of_mem _ hm))
    simp only [List.cons_append, tryAlternateIPs, he, List.append_eq, h2,
      List.map_cons, List.cons_append]

/-- The attempts of `doRequestAPIHost` made before the DNS attempt: none when no
last-good IP is cached, the one failed last-good attempt otherwise. -/
def lastGoodPrefix {Resp : Type} (att : Target → Except String Resp) (a : API)
    (pfx : List Target) : Prop :=
  (a.lastGoodAlternateIP = none ∧ pfx = [])
  ∨ (∃ ip e, a.lastGoodAlternateIP = some ip ∧ att (Target.byIP ip) = .error e
      ∧ pfx = [Target.byIP ip])

theorem doRequestAPIHost_with_pfx {Resp : Type} (att : Target → Except String Resp)
    (a : API) (pfx : List Target) (h : lastGoodPrefix att a pfx) :
    doRequestAPIHost att a
      = (let (a2, r, tr) := dnsThenAlternates att a a.alternateIPs
         (a2, r, pfx ++ tr)) := by
  rcases h with ⟨hnone, rfl⟩ | ⟨ip, e, hsome, herr, rfl⟩
  · simp only [doRequestAPIHost, hnone, List.nil_append]
  · simp only [doRequestAPIHost, hsome, herr, List.cons_append, List.nil_append]

/-! ## Claim C2 -/

/-- C2: the failover order of api-host requests. A cached last-good IP is tried
first and a success there returns immediately with the cache unchanged;
otherwise (no cache, or the cached attempt failed) the canonical host is tried
by DNS, a success clearing the cache; on DNS failure the alternate IPs are
tried in list order, the first success being cached as last-good; when every
attempt fails the DNS error is the one returned (wrapped); and with no cache
and no alternates only the DNS attempt is made. -/
theorem C2_failover {Resp : Type} (att : Target → Except String Resp) (a : API) :
    (∀ ip r, a.lastGoodAlternateIP = some ip → att (Target.byIP ip) = .ok r →
      doRequestAPIHost att a = (a, .ok r, [Target.byIP ip]))
    ∧ (∀ pfx r, lastGoodPrefix att a pfx → att Target.byDNS = .ok r →
      doRequestAPIHost att a
        = (saveLastGoodAlternateIP a none, .ok r, pfx ++ [Target.byDNS]))
    ∧ (∀ pfx f0 pre ip0 rest r0, lastGoodPrefix att a pfx →
      att Target.byDNS = .error f0 →
      a.alternateIPs = pre ++ ip0 :: rest →
      (∀ ip ∈ pre, ∃ e, att (Target.byIP ip) = .error e) →
      att (Target.byIP ip0) = .ok r0 →
      doRequestAPIHost att a
        = (saveLastGoodAlternateIP a (some ip0), .ok r0,
           pfx ++ Target.byDNS :: (pre.map Target.byIP ++ [Target.byIP ip0])))
    ∧ (∀ pfx f0, lastGoodPrefix att a pfx →
      att Target.byDNS = .error f0 →
      (∀ ip ∈ a.alternateIPs, ∃ e, att (Target.byIP ip) = .error e) →
      doRequestAPIHost att a
        = (a, .error ("Unable to access IVPN API server: " ++ f0),
           pfx ++ Target.byDNS :: a.alternateIPs.map Target.byIP))
    ∧ (a.lastGoodAlternateIP = none → a.alternateIPs = [] →
      (doRequestAPIHost att a).2.2 = [Target.byDNS]) := by
  refine ⟨?_, ?_, ?_, ?_, ?_⟩
  · intro ip r hsome hok
    simp only [doRequestAPIHost, hsome, hok]
  · intro pfx r hpfx hdns
    rw [doRequestAPIHost_with_pfx att a pfx hpfx]
    simp only [dnsThenAlternates, hdns]
  · intro pfx f0 pre ip0 rest r0 hpfx hdns halts hpre hok
    rw [doRequestAPIHost_with_pfx att a pfx hpfx]
    simp only [dnsThenAlternates, hdns, halts,
      tryAlternateIPs_first_success att a pre ip0 rest r0 hpre hok]
  · intro pfx f0 hpfx hdns hall
    rw [doRequestAPIHost_with_pfx att a pfx hpfx]
    simp only [dnsThenAlternates, hdns, tryAlternateIPs_all_fail att a _ hall]
  · intro hnone hnil
    simp only [doRequestAPIHost, hnone, dnsThenAlternates, hnil]
    cases hdns : att Target.byDNS with
    | ok r => simp [hdns]
    | error e => simp [hdns, tryAlternateIPs]

/-- Witness for C2: with no cached last-good IP, alternates [[1]] and a DNS
failure, the request succeeds via the single alternate, which becomes the
cached last-good IP; the attempt order is DNS then the alternate. -/
theorem C2_failover_witness :
    doRequestAPIHost
      (fun t => match t with
        | Target.byDNS => (Except.error "dns down" : Except String Nat)
        | Target.byIP _ => Except.ok 5)
      ⟨[[1]], none⟩
      = (⟨[[1]], some [1]⟩, Except.ok 5, [Target.byDNS, Target.byIP [1]]) := by
  have h := (C2_failover
      (fun t => match t with
        | Target.byDNS => (Except.error "dns down" : Except String Nat)
        | Target.byIP _ => Except.ok 5)
      ⟨[[1]], none⟩).2.2.1 [] "dns down" [] [1] [] 5
    (Or.inl ⟨rfl, rfl⟩) rfl rfl (by simp) rfl
  simpa [saveLastGoodAlternateIP] using h

end Ivpn

namespace Ivpn

/-! ## Helper lemmas for the WireGuard adapter -/

theorem startLoop_timeout (obs : List StartObs) (h : ∀ o ∈ obs, o = StartObs.pending) :
    startLoop obs = ⟨some "service not started (timeout)", true, []⟩ := by
  induction obs with
  | nil => rfl
  | cons o rest ih =>
    have ho := h o (List.mem_cons_self _ _)
    subst ho
    exact ih (fun o2 hm => h o2 (List.mem_cons_of_mem _ hm))

theorem startLoop_stopped (pre rest : List StartObs) (h : ∀ o ∈ pre, o = StartObs.pending) :
    startLoop (pre ++ StartObs.stopped :: rest)
      = ⟨some "WireGuard service stopped", true, []⟩ := by
  induction pre with
  | nil => rfl
  | cons o pre2 ih =>
    have ho := h o (List.mem_cons_self _ _)
    subst ho
    exact ih (fun o2 hm => h o2 (List.mem_cons_of_mem _ hm))

theorem startLoop_running (pre rest : List StartObs) (h : ∀ o ∈ pre, o = StartObs.pending) :
    startLoop (pre ++ StartObs.runningOk :: rest)
      = ⟨none, false, [connectedNotification]⟩ := by
  induction pre with
  | nil => rfl
  | cons o pre2 ih =>
    have ho := h o (List.mem_cons_self _ _)
    subst ho
    exact ih (fun o2 hm => h o2 (List.mem_cons_of_mem _ hm))

theorem installService_clean (env : InstallEnv) (h1 : env.configSaveErr = none)
    (h2 : env.shellInstallErr = none) (h3 : env.mgrConnectErr = none) :
    installService env
      = if env.installFound then startLoop env.startObs
        else ⟨some "service not installed (timeout)", true, []⟩ := by
  simp only [installService, h1, h2, h3]

theorem runLoop_breaks (running : Bool) (uerr : Option String) (ienv : InstallEnv)
    (acts : List WGAction) :
    ∀ st : Internals, (∃ p, WGAction.iter p ∈ acts ∧ p.terminal = true) →
      (runLoop running uerr ienv st acts).2.2 = true := by
  induction acts with
  | nil =>
    rintro st ⟨p, hp, _⟩
    simp at hp
  | cons a rest ih =>
    rintro st ⟨p, hp, hterm⟩
    match a with
    | .callSetManualDNS addr =>
      have hmem : WGAction.iter p ∈ rest := by
        rcases List.mem_cons.mp hp with h | h
        · exact absurd h (by simp)
        · exact h
      exact ih _ ⟨p, hmem, hterm⟩
    | .iter q =>
      by_cases hq : q.terminal = true
      · simp [runLoop, hq]
      · have hmem : WGAction.iter p ∈ rest := by
          rcases List.mem_cons.mp hp with h | h
          · rcases WGAction.iter.inj h with rfl
            exact absurd hterm hq
          · exact h
        have hrec := ih (restartStep uerr ienv st).1 ⟨p, hmem, hterm⟩
        simp only [runLoop, hq, Bool.false_eq_true, if_false]
        rw [show (restartStep uerr ienv st) = ((restartStep uerr ienv st).1,
          (restartStep uerr ienv st).2) from rfl]
        simp only []
        rw [show (runLoop running uerr ienv (restartStep uerr ienv st).1 rest)
          = ((runLoop running uerr ienv (restartStep uerr ienv st).1 rest).1,
             (runLoop running uerr ienv (restartStep uerr ienv st).1 rest).2.1,
             (runLoop running uerr ienv (restartStep uerr ienv st).1 rest).2.2) from rfl]
        exact hrec

theorem connect_install_err (st : Internals) (env : ConnectEnv) (e : String)
    (hdis : st.isDisconnectRequested = false) (hpre : env.preDisconnectErr = none)
    (hmgr : env.mgrConnectErr = none)
    (hie : (installService env.install).err = some e) :
    connect st env
      = ⟨.err ("failed to install windows service: " ++ e),
         (installService env.install).emitted, true,
         (installService env.install).uninstallAttempted, st⟩ := by
  simp only [connect, hdis, hpre, hmgr, hie, Bool.false_eq_true, if_false]

theorem connect_install_ok (st : Internals) (env : ConnectEnv)
    (hdis : st.isDisconnectRequested = false) (hpre : env.preDisconnectErr = none)
    (hmgr : env.mgrConnectErr = none)
    (hie : (installService env.install).err = none)
    (hdd : env.disconnectDuringInstall = false) :
    connect st env
      = ⟨if (runLoop env.svcRunningForDNS env.restartUninstallErr env.restartInstall st
            env.loopActions).2.2 then .ok else .stillRunning,
         (installService env.install).emitted
           ++ (runLoop env.svcRunningForDNS env.restartUninstallErr env.restartInstall st
                env.loopActions).2.1,
         true, (installService env.install).uninstallAttempted,
         (runLoop env.svcRunningForDNS env.restartUninstallErr env.restartInstall st
            env.loopActions).1⟩ := by
  simp only [connect, hdis, hpre, hmgr, hie, hdd, Bool.false_eq_true, if_false]

end Ivpn

namespace Ivpn

/-! ## Claim C4 -/

/-- C4: with the pre-connect steps succeeding, a service-install timeout, a
service-start timeout, or the service reaching Stopped during bringup makes
`connect` return a non-nil error after the best-effort uninstall inside
`installService` has run; whereas once the service came up (CONNECTED reached),
a poll observing the service stopped or gone makes `connect` return nil. -/
theorem C4_connect_lifecycle (st : Internals) (env : ConnectEnv)
    (hdis : st.isDisconnectRequested = false)
    (hpre : env.preDisconnectErr = none)
    (hmgr : env.mgrConnectErr = none)
    (hcfg : env.install.configSaveErr = none)
    (hshell : env.install.shellInstallErr = none)
    (himgr : env.install.mgrConnectErr = none) :
    ((env.install.installFound = false →
      (∃ e, (connect st env).outcome = .err e)
        ∧ (connect st env).bestEffortUninstall = true)
    ∧ (env.install.installFound = true →
        (∀ o ∈ env.install.startObs, o = StartObs.pending) →
        (∃ e, (connect st env).outcome = .err e)
          ∧ (connect st env).bestEffortUninstall = true)
    ∧ (∀ pre rest, env.install.installFound = true →
        env.install.startObs = pre ++ StartObs.stopped :: rest →
        (∀ o ∈ pre, o = StartObs.pending) →
        (∃ e, (connect st env).outcome = .err e)
          ∧ (connect st env).bestEffortUninstall = true)
    ∧ (∀ pre rest, env.install.installFound = true →
        env.install.startObs = pre ++ StartObs.runningOk :: rest →
        (∀ o ∈ pre, o = StartObs.pending) →
        env.disconnectDuringInstall = false →
        (∃ p, WGAction.iter p ∈ env.loopActions ∧ p.terminal = true) →
        (connect st env).outcome = .ok
          ∧ (connect st env).emitted
              = connectedNotification
                :: (runLoop env.svcRunningForDNS env.restartUninstallErr
                     env.restartInstall st env.loopActions).2.1)) := by
  have hclean := installService_clean env.install hcfg hshell himgr
  refine ⟨?_, ?_, ?_, ?_⟩
  · intro hfound
    have hie : (installService env.install).err = some "service not installed (timeout)" := by
      rw [hclean, hfound]
      rfl
    have hia : (installService env.install).uninstallAttempted = true := by
      rw [hclean, hfound]
      rfl
    rw [connect_install_err st env _ hdis hpre hmgr hie]
    exact ⟨⟨_, rfl⟩, hia⟩
  · intro hfound hpend
    have hsl := startLoop_timeout env.install.startObs hpend
    have hie : (installService env.install).err = some "service not started (timeout)" := by
      rw [hclean, hfound, if_pos rfl, hsl]
    have hia : (installService env.install).uninstallAttempted = true := by
      rw [hclean, hfound, if_pos rfl, hsl]
    rw [connect_install_err st env _ hdis hpre hmgr hie]
    exact ⟨⟨_, rfl⟩, hia⟩
  · intro pre rest hfound hobs hpend
    have hsl := startLoop_stopped pre rest hpend
    have hie : (installService env.install).err = some "WireGuard service stopped" := by
      rw [hclean, hfound, if_pos rfl, hobs, hsl]
    have hia : (installService env.install).uninstallAttempted = true := by
      rw [hclean, hfound, if_pos rfl, hobs, hsl]
    rw [connect_install_err st env _ hdis hpre hmgr hie]
    exact ⟨⟨_, rfl⟩, hia⟩
  · intro pre rest hfound hobs hpend hdd hbreak
    have hsl := startLoop_running pre rest hpend
    have hins : installService env.install = ⟨none, false, [connectedNotification]⟩ := by
      rw [hclean, hfound, if_pos rfl, hobs, hsl]
    have hie : (installService env.install).err = none := by rw [hins]
    rw [connect_install_ok st env hdis hpre hmgr hie hdd]
    have hbk := runLoop_breaks env.svcRunningForDNS env.restartUninstallErr
      env.restartInstall env.loopActions st hbreak
    rw [hbk, hins]
    exact ⟨rfl, rfl⟩

/-- Witness for C4: a concrete install-timeout environment makes `connect` fail
with the best-effort uninstall run, and a concrete healthy bringup whose
supervision loop then observes the service stopped makes `connect` return nil. -/
theorem C4_connect_lifecycle_witness :
    ((∃ e, (connect ⟨none, false, false⟩
        ⟨none, none, ⟨none, none, none, false, []⟩, false, none, true, none,
         ⟨none, none, none, true, [StartObs.runningOk]⟩, []⟩).outcome = .err e)
      ∧ (connect ⟨none, false, false⟩
        ⟨none, none, ⟨none, none, none, false, []⟩, false, none, true, none,
         ⟨none, none, none, true, [StartObs.runningOk]⟩, []⟩).bestEffortUninstall = true)
    ∧ (connect ⟨none, false, false⟩
        ⟨none, none, ⟨none, none, none, true, [StartObs.pending, StartObs.runningOk]⟩,
         false, none, true, none, ⟨none, none, none, true, [StartObs.runningOk]⟩,
         [WGAction.iter LoopPoll.stillRunning, WGAction.iter LoopPoll.stopped]⟩).outcome
        = .ok := by
  constructor
  · exact (C4_connect_lifecycle ⟨none, false, false⟩
      ⟨none, none, ⟨none, none, none, false, []⟩, false, none, true, none,
       ⟨none, none, none, true, [StartObs.runningOk]⟩, []⟩
      rfl rfl rfl rfl rfl rfl).1 rfl
  · exact ((C4_connect_lifecycle ⟨none, false, false⟩
      ⟨none, none, ⟨none, none, none, true, [StartObs.pending, StartObs.runningOk]⟩,
       false, none, true, none, ⟨none, none, none, true, [StartObs.runningOk]⟩,
       [WGAction.iter LoopPoll.stillRunning, WGAction.iter LoopPoll.stopped]⟩
      rfl rfl rfl rfl rfl rfl).2.2.2 [StartObs.pending] [] rfl rfl
      (by intro o ho; simpa using ho) rfl
      ⟨LoopPoll.stopped, by simp, rfl⟩).1

end Ivpn

namespace Ivpn

/-! ## Helper lemmas for the DNS-change restart protocol -/

theorem ipEqualsOpt_self (x : IP) : ipEqualsOpt x (some x) = true := by
  simp [ipEqualsOpt]

theorem ipEqualsOpt_eq_false (x : IP) (o : Option IP) (h : o ≠ some x) :
    ipEqualsOpt x o = false := by
  cases o with
  | none => rfl
  | some l =>
    simp only [ipEqualsOpt, decide_eq_false_iff_not]
    intro he
    exact h (by rw [he])

theorem setManualDNS_noop (running : Bool) (y : IP) (st : Internals)
    (h : ipEqualsOpt y st.manualDNS = true) : setManualDNS running y st = st := by
  simp [setManualDNS, h]

theorem setManualDNS_new (x : IP) (st : Internals) (h : st.manualDNS ≠ some x) :
    setManualDNS true x st = ⟨some x, true, st.isDisconnectRequested⟩ := by
  simp [setManualDNS, ipEqualsOpt_eq_false x st.manualDNS h]

theorem runLoop_noflag (running : Bool) (uerr : Option String) (ienv : InstallEnv)
    (k : Nat) :
    ∀ (st : Internals) (rest : List WGAction), st.isRestartRequired = false →
      runLoop running uerr ienv st
        (List.replicate k (WGAction.iter LoopPoll.stillRunning) ++ rest)
      = runLoop running uerr ienv st rest := by
  induction k with
  | zero => intro st rest _; rw [List.replicate_zero, List.nil_append]
  | succ n ih =>
    intro st rest hflag
    rw [List.replicate_succ, List.cons_append]
    simp only [runLoop, LoopPoll.terminal, Bool.false_eq_true, if_false,
      restartStep, hflag, ih st rest hflag, List.nil_append]

theorem runLoop_replicate_noflag (running : Bool) (uerr : Option String)
    (ienv : InstallEnv) (k : Nat) (st : Internals) (hflag : st.isRestartRequired = false) :
    runLoop running uerr ienv st
      (List.replicate k (WGAction.iter LoopPoll.stillRunning)) = (st, [], false) := by
  have h := runLoop_noflag running uerr ienv k st [] hflag
  rwa [List.append_nil] at h

theorem runLoop_flag_fires (running : Bool) (uerr : Option String) (ienv : InstallEnv)
    (k : Nat) (st : Internals) (rest : List WGAction)
    (hflag : st.isRestartRequired = true) (hk : 1 ≤ k) :
    runLoop running uerr ienv st
      (List.replicate k (WGAction.iter LoopPoll.stillRunning) ++ rest)
      = ((runLoop running uerr ienv ⟨st.manualDNS, false, st.isDisconnectRequested⟩ rest).1,
         restartEmissions uerr ienv
           ++ (runLoop running uerr ienv ⟨st.manualDNS, false, st.isDisconnectRequested⟩
                rest).2.1,
         (runLoop running uerr ienv ⟨st.manualDNS, false, st.isDisconnectRequested⟩
            rest).2.2) := by
  cases k with
  | zero => exact absurd hk (by decide)
  | succ n =>
    rw [List.replicate_succ, List.cons_append]
    have hst2 : ({ st with isRestartRequired := false } : Internals)
        = ⟨st.manualDNS, false, st.isDisconnectRequested⟩ := rfl
    have hnof := runLoop_noflag running uerr ienv n
      ⟨st.manualDNS, false, st.isDisconnectRequested⟩ rest rfl
    simp only [runLoop, LoopPoll.terminal, Bool.false_eq_true, if_false,
      restartStep, hflag, if_true, hst2, hnof]

theorem startLoop_emitted (obs : List StartObs) :
    (startLoop obs).emitted = [] ∨ (startLoop obs).emitted = [connectedNotification] := by
  induction obs with
  | nil => exact Or.inl rfl
  | cons o rest ih =>
    cases o with
    | runningOk => exact Or.inr rfl
    | stopped => exact Or.inl rfl
    | statErr e => exact Or.inl rfl
    | pending => exact ih

theorem installService_emitted (env : InstallEnv) :
    (installService env).emitted = []
      ∨ (installService env).emitted = [connectedNotification] := by
  cases h1 : env.configSaveErr with
  | some e => simp only [installService, h1]; exact Or.inl trivial
  | none =>
  cases h2 : env.shellInstallErr with
  | some e => simp only [installService, h1, h2]; exact Or.inl trivial
  | none =>
  cases h3 : env.mgrConnectErr with
  | some e => simp only [installService, h1, h2, h3]; exact Or.inl trivial
  | none =>
    simp only [installService, h1, h2, h3]
    by_cases h4 : env.installFound = true
    · rw [if_pos h4]
      exact startLoop_emitted env.startObs
    · rw [if_neg h4]
      exact Or.inl rfl

theorem countReconnecting_append (l1 l2 : List StateInfo) :
    countReconnecting (l1 ++ l2) = countReconnecting l1 + countReconnecting l2 :=
  List.countP_append _ _ _

theorem countReconnecting_restartEmissions (uerr : Option String) (ienv : InstallEnv) :
    countReconnecting (restartEmissions uerr ienv) = 1 := by
  cases uerr with
  | some e =>
    simp only [restartEmissions]
    decide
  | none =>
    simp only [restartEmissions, countReconnecting, List.countP_cons]
    rcases installService_emitted ienv with h | h <;> rw [h] <;> decide

end Ivpn

namespace Ivpn

/-! ## Claim C6 -/

/-- C6: with the tunnel connected (service running) and a stored manual-DNS
value different from `x`, calling `setManualDNS x`, letting the supervision
loop run, calling `setManualDNS x` again, and letting the loop run again emits
exactly one RECONNECTING (one restart), for any split of at least one loop
iteration around the second call — because a call whose argument equals the
stored manual-DNS value is a no-op that does not set the restart flag. -/
theorem C6_setManualDNS_same_value (x : IP) (st : Internals) (uerr : Option String)
    (ienv : InstallEnv) (n m : Nat)
    (hdns : st.manualDNS ≠ some x)
    (hnm : 1 ≤ n + m) :
    countReconnecting ((runLoop true uerr ienv st
      (WGAction.callSetManualDNS x
        :: (List.replicate n (WGAction.iter LoopPoll.stillRunning)
          ++ WGAction.callSetManualDNS x
          :: List.replicate m (WGAction.iter LoopPoll.stillRunning)))).2.1) = 1
    ∧ (∀ (y : IP) (st2 : Internals), ipEqualsOpt y st2.manualDNS = true →
        setManualDNS true y st2 = st2) := by
  refine ⟨?_, fun y st2 h => setManualDNS_noop true y st2 h⟩
  rw [show runLoop true uerr ienv st
      (WGAction.callSetManualDNS x
        :: (List.replicate n (WGAction.iter LoopPoll.stillRunning)
          ++ WGAction.callSetManualDNS x
          :: List.replicate m (WGAction.iter LoopPoll.stillRunning)))
      = runLoop true uerr ienv (setManualDNS true x st)
          (List.replicate n (WGAction.iter LoopPoll.stillRunning)
            ++ WGAction.callSetManualDNS x
            :: List.replicate m (WGAction.iter LoopPoll.stillRunning)) from rfl,
    setManualDNS_new x st hdns]
  cases n with
  | zero =>
    have hm : 1 ≤ m := by simpa using hnm
    rw [List.replicate_zero, List.nil_append]
    rw [show runLoop true uerr ienv (⟨some x, true, st.isDisconnectRequested⟩ : Internals)
        (WGAction.callSetManualDNS x
          :: List.replicate m (WGAction.iter LoopPoll.stillRunning))
        = runLoop true uerr ienv
            (setManualDNS true x ⟨some x, true, st.isDisconnectRequested⟩)
            (List.replicate m (WGAction.iter LoopPoll.stillRunning)) from rfl,
      setManualDNS_noop true x _ (ipEqualsOpt_self x)]
    rw [show List.replicate m (WGAction.iter LoopPoll.stillRunning)
        = List.replicate m (WGAction.iter LoopPoll.stillRunning) ++ []
        from (List.append_nil _).symm,
      runLoop_flag_fires true uerr ienv m _ [] rfl hm]
    simp only [runLoop, List.append_nil]
    exact countReconnecting_restartEmissions uerr ienv
  | succ n2 =>
    rw [runLoop_flag_fires true uerr ienv (n2 + 1) _ _ rfl (by omega)]
    rw [show runLoop true uerr ienv
        (⟨(⟨some x, true, st.isDisconnectRequested⟩ : Internals).manualDNS, false,
          (⟨some x, true, st.isDisconnectRequested⟩ : Internals).isDisconnectRequested⟩
          : Internals)
        (WGAction.callSetManualDNS x
          :: List.replicate m (WGAction.iter LoopPoll.stillRunning))
        = runLoop true uerr ienv
            (setManualDNS true x ⟨some x, false, st.isDisconnectRequested⟩)
            (List.replicate m (WGAction.iter LoopPoll.stillRunning)) from rfl,
      setManualDNS_noop true x _ (ipEqualsOpt_self x),
      runLoop_replicate_noflag true uerr ienv m _ rfl]
    simp only [countReconnecting_append, List.append_nil]
    exact countReconnecting_restartEmissions uerr ienv

/-- Witness for C6: a concrete double `setManualDNS [10,0,0,1]` with one loop
iteration between and after the calls emits exactly one RECONNECTING, and a
repeated call with the stored value is a no-op. -/
theorem C6_setManualDNS_same_value_witness :
    countReconnecting ((runLoop true none ⟨none, none, none, true, [StartObs.runningOk]⟩
      (⟨none, false, false⟩ : Internals)
      (WGAction.callSetManualDNS [10, 0, 0, 1]
        :: (List.replicate 1 (WGAction.iter LoopPoll.stillRunning)
          ++ WGAction.callSetManualDNS [10, 0, 0, 1]
          :: List.replicate 1 (WGAction.iter LoopPoll.stillRunning)))).2.1) = 1 :=
  (C6_setManualDNS_same_value [10, 0, 0, 1] ⟨none, false, false⟩ none
    ⟨none, none, none, true, [StartObs.runningOk]⟩ 1 1
    (by simp) (by decide)).1

end Ivpn
